import Mathlib

/-!
Verification of the per-datatype replication core of a CRDT client SDK.

The development shallowly embeds the Rust sources: pure functions become
Lean functions, `&mut self` methods become explicit state passing, `Result`
becomes `Except`, and a Rust `panic!`/`todo!`/`unreachable!` path becomes
`Option.none`.  `u64` values are embedded as `Nat` (no operation proved
about here ever overflows 64 bits and every subtraction in the sources is
guarded, so the embedding agrees with wrapping arithmetic) and `i64`
counter deltas as `Int`.
-/

namespace Qortoo

/-! ### Core enums (types/datatype.rs) -/

/-- `DataType` from types/datatype.rs: the kind of CRDT. -/
inductive DataType where
  | counter
  | variableType
  | mapType
deriving DecidableEq, Repr

/-- `DatatypeState` from types/datatype.rs: the lifecycle state of a datatype. -/
inductive DatatypeState where
  | dueToCreate
  | dueToSubscribe
  | dueToSubscribeOrCreate
  | subscribed
  | dueToUnsubscribe
  | dueToDelete
  | disabled
deriving DecidableEq, Repr

/-- `CheckPoint` from types/checkpoint.rs. -/
structure CheckPoint where
  sseq : Nat
  cseq : Nat
deriving DecidableEq, Repr

/-- `CheckPoint::new`. -/
def CheckPoint.new (sseq cseq : Nat) : CheckPoint := ⟨sseq, cseq⟩

/-- `CheckPoint::default` (both fields zero). -/
def CheckPoint.default : CheckPoint := ⟨0, 0⟩

/-! ### Operations (operations/body.rs and the operations module) -/

/-- `OperationBody` from operations/body.rs.  `delay4Test` is the
test-build-only body whose `run` fails exactly when `success` is false. -/
inductive OperationBody where
  | counterIncrease (delta : Int)
  | delay4Test (durationMs : Nat) (success : Bool)
deriving DecidableEq, Repr

/-- `MemoryMeasurable::size` for `OperationBody` (operations/body.rs):
`size_of::<i64>()` for `CounterIncrease`, `size_of::<u64>() + size_of::<bool>()`
for `Delay4Test`. -/
def OperationBody.size : OperationBody → Nat
  | .counterIncrease _ => 8
  | .delay4Test _ _ => 9

/-- Modelled from the spec: the `Operation` struct itself (the operations
module root) is not among the sources; per the spec an operation is an
immutable record carrying a `lamport` stamp and a typed body, and is
mem-sized for buffer accounting. -/
structure Operation where
  lamport : Nat
  body : OperationBody
deriving DecidableEq, Repr

/-- Modelled from the spec: operation size is a fixed overhead (its
`lamport` stamp) plus the body size. -/
def Operation.size (op : Operation) : Nat := 8 + op.body.size

/-- `Operation::new_counter_increase`. -/
def Operation.new_counter_increase (delta : Int) : Operation :=
  ⟨0, .counterIncrease delta⟩

/-- `Operation::set_lamport`. -/
def Operation.set_lamport (op : Operation) (l : Nat) : Operation :=
  { op with lamport := l }

/-! ### OperationId (types/operation_id.rs, not among the sources) -/

/-- Modelled from the spec: types/operation_id.rs is not among the sources.
`OperationId` is `(cuid, cseq, lamport)`; `cseq` counts locally-originated
transactions starting at 0 and `lamport` is a monotonic counter advanced by
every operation.  Cuids are 16-character opaque identifiers; equality is all
that matters here, so they are embedded as `Nat`. -/
structure OperationId where
  cuid : Nat
  cseq : Nat
  lamport : Nat
deriving DecidableEq, Repr

/-- Modelled from the spec: `next_cseq` returns `cseq + 1` and also advances
`lamport`.  The returned pair is (returned value, updated id). -/
def OperationId.next_cseq (o : OperationId) : Nat × OperationId :=
  (o.cseq + 1, { o with cseq := o.cseq + 1, lamport := o.lamport + 1 })

/-- Modelled from the spec: `next_lamport` advances `lamport` and returns it. -/
def OperationId.next_lamport (o : OperationId) : Nat × OperationId :=
  (o.lamport + 1, { o with lamport := o.lamport + 1 })

/-- Modelled from the spec: `prev_cseq` is the rollback of `next_cseq` used
for aborted transactions, undoing both bumps. -/
def OperationId.prev_cseq (o : OperationId) : OperationId :=
  { o with cseq := o.cseq - 1, lamport := o.lamport - 1 }

/-- Modelled from the spec: `prev_lamport` is the rollback of `next_lamport`. -/
def OperationId.prev_lamport (o : OperationId) : OperationId :=
  { o with lamport := o.lamport - 1 }

/-- Modelled from the spec: `OperationId::sync` (used by the replay path)
merges another id of the same client by component-wise maximum. -/
def OperationId.sync (o other : OperationId) : OperationId :=
  { o with cseq := max o.cseq other.cseq, lamport := max o.lamport other.lamport }

/-- `OperationId::new_with_cuid`. -/
def OperationId.new_with_cuid (cuid : Nat) : OperationId := ⟨cuid, 0, 0⟩

/-! ### Transactions (operations/transaction.rs) -/

/-- `TRANSACTION_CONSTANT_SIZE` from operations/transaction.rs on a 64-bit
platform: `size_of::<Vec<Operation>>() (24) + UID_LEN (16) +
size_of::<Option<String>>() (24) + 8 + 8 + 1`. -/
def TRANSACTION_CONSTANT_SIZE : Nat := 24 + 16 + 24 + 8 + 8 + 1

/-- `Transaction` from operations/transaction.rs. -/
structure Transaction where
  cuid : Nat
  cseq : Nat
  sseq : Nat
  tag : Option String
  event : Bool
  operations : List Operation
deriving DecidableEq, Repr

/-- `MemoryMeasurable::size` for `Transaction`: constant overhead plus tag
length plus the sum of operation sizes. -/
def Transaction.size (tx : Transaction) : Nat :=
  TRANSACTION_CONSTANT_SIZE
    + (match tx.tag with | some s => s.length | none => 0)
    + (tx.operations.map Operation.size).sum

/-- `Transaction::new`: captures the cuid and a fresh `next_cseq`; also
returns the updated `OperationId` (the Rust version mutates it). -/
def Transaction.new (op_id : OperationId) : Transaction × OperationId :=
  ({ cuid := op_id.cuid, cseq := op_id.next_cseq.1, sseq := 0, tag := none,
     event := false, operations := [] }, op_id.next_cseq.2)

/-- `Transaction::get_op_id`: a fresh id with this transaction's cuid and
cseq (lamport 0). -/
def Transaction.get_op_id (tx : Transaction) : OperationId :=
  { cuid := tx.cuid, cseq := tx.cseq, lamport := 0 }

/-- `Transaction::set_tag`. -/
def Transaction.set_tag (tx : Transaction) (tag : Option String) : Transaction :=
  { tx with tag := tag }

/-- `Transaction::push_operation`. -/
def Transaction.push_operation (tx : Transaction) (op : Operation) : Transaction :=
  { tx with operations := tx.operations ++ [op] }

/-! ### Datatype option (datatypes/option.rs, defaults.rs) -/

/-- Lower clamp for the push-buffer memory bound (1 MiB). -/
def LOWER_MAX_MEM_SIZE_OF_PUSH_BUFFER : Nat := 1048576

/-- Upper clamp for the push-buffer memory bound (1 GiB). -/
def UPPER_MAX_MEM_SIZE_OF_PUSH_BUFFER : Nat := 1073741824

/-- Default push-buffer memory bound (100 MiB). -/
def DEFAULT_MAX_MEM_SIZE_OF_PUSH_BUFFER : Nat := 104857600

/-- `DatatypeOption` from datatypes/option.rs. -/
structure DatatypeOption where
  max_mem_size_of_push_buffer : Nat
deriving DecidableEq, Repr

/-- `DatatypeOption::new`: clamps the requested bound to
`[LOWER, UPPER]`. -/
def DatatypeOption.new (maxSize : Nat) : DatatypeOption :=
  ⟨min (max maxSize LOWER_MAX_MEM_SIZE_OF_PUSH_BUFFER) UPPER_MAX_MEM_SIZE_OF_PUSH_BUFFER⟩

/-- `DatatypeOption::default`. -/
def DatatypeOption.default : DatatypeOption :=
  DatatypeOption.new DEFAULT_MAX_MEM_SIZE_OF_PUSH_BUFFER

/-! ### PushBuffer (datatypes/push_buffer.rs) -/

/-- `PushBufferError` from datatypes/push_buffer.rs. -/
inductive PushBufferError where
  | exceedMaxMemSize
  | nonSequentialCseq
  | failToGetAfter
deriving DecidableEq, Repr

/-- `MemoryPushBuffer` from datatypes/push_buffer.rs.  The `VecDeque` is
embedded as a list whose head is the deque's front. -/
structure MemoryPushBuffer where
  transaction : List Transaction
  mem_size : Nat
  option : DatatypeOption
  first_cseq : Nat
  last_cseq : Nat
deriving DecidableEq, Repr

/-- `MemoryPushBuffer::new`. -/
def MemoryPushBuffer.new (option : DatatypeOption) : MemoryPushBuffer :=
  { transaction := [], mem_size := 0, option := option, first_cseq := 0, last_cseq := 0 }

/-- `MemoryPushBuffer::enque`.  An error leaves the buffer unchanged (the
source returns before any mutation). -/
def MemoryPushBuffer.enque (b : MemoryPushBuffer) (tx : Transaction) :
    Except PushBufferError MemoryPushBuffer :=
  if b.last_cseq ≠ 0 ∧ b.last_cseq + 1 ≠ tx.cseq then
    .error .nonSequentialCseq
  else if b.option.max_mem_size_of_push_buffer < b.mem_size + tx.size then
    .error .exceedMaxMemSize
  else
    .ok { b with
      first_cseq := if b.first_cseq = 0 then tx.cseq else b.first_cseq,
      last_cseq := tx.cseq,
      mem_size := b.mem_size + tx.size,
      transaction := b.transaction ++ [tx] }

/-- The `for i in index..len` loop of `get_after`: accumulate transactions
while the running total does not exceed `max_mem_size`, breaking (without
taking the transaction) as soon as it would. -/
def getAfterCollect : List Transaction → Nat → Nat → List Transaction
  | [], _, _ => []
  | tx :: rest, maxMem, total =>
    if maxMem < total + tx.size then []
    else tx :: getAfterCollect rest maxMem (total + tx.size)

/-- `MemoryPushBuffer::get_after`.  The Rust method takes `&mut self` but
never writes, so it is embedded as a pure function of the buffer. -/
def MemoryPushBuffer.get_after (b : MemoryPushBuffer) (cseq maxMem : Nat) :
    Except PushBufferError (List Transaction) :=
  if cseq = 0 ∨ cseq < b.first_cseq then .error .failToGetAfter
  else
    let index := cseq - b.first_cseq
    if b.transaction.length ≤ index then .error .failToGetAfter
    else .ok (getAfterCollect (b.transaction.drop index) maxMem 0)

/-- `MemoryPushBuffer::need_to_deque`. -/
def need_to_deque : Option Transaction → Nat → Bool
  | some tx, cseq => decide (tx.cseq ≤ cseq)
  | none, _ => false

/-- The pop-front loop of `deque` over the loop state
`(remaining deque, mem_size, first_cseq, last_cseq)`: while the front
transaction's cseq is at most `upto` (`need_to_deque`), pop it, subtract its
size, and reset `first_cseq` to the new front's cseq (or zero both cseqs when
the buffer empties).  Returns the popped transactions in pop order together
with the final loop state. -/
def dequeGo (upto : Nat) :
    List Transaction → Nat → Nat → Nat →
    List Transaction × List Transaction × Nat × Nat × Nat
  | [], mem, first, last => ([], [], mem, first, last)
  | tx :: rest, mem, first, last =>
    if tx.cseq ≤ upto then
      let mem' := mem - tx.size
      let first' := match rest with
        | front :: _ => front.cseq
        | [] => 0
      let last' := match rest with
        | _ :: _ => last
        | [] => 0
      let (p, r, m, f, l) := dequeGo upto rest mem' first' last'
      (tx :: p, r, m, f, l)
    else ([], tx :: rest, mem, first, last)

/-- `MemoryPushBuffer::deque`: returns the removed transactions together
with the updated buffer. -/
def MemoryPushBuffer.deque (b : MemoryPushBuffer) (upto_cseq : Nat) :
    List Transaction × MemoryPushBuffer :=
  if upto_cseq < b.first_cseq then ([], b)
  else if b.last_cseq < upto_cseq then
    (b.transaction,
      { b with transaction := [], mem_size := 0, first_cseq := 0, last_cseq := 0 })
  else
    let (p, r, m, f, l) := dequeGo upto_cseq b.transaction b.mem_size b.first_cseq b.last_cseq
    (p, { b with transaction := r, mem_size := m, first_cseq := f, last_cseq := l })

/-! ### The push-buffer invariant -/

/-- The push-buffer invariant over the loop state
`(transactions, mem_size, first_cseq, last_cseq)`: either the buffer is empty
with all three counters zero, or the stored transactions carry exactly the
contiguous cseq values `first_cseq, first_cseq+1, …, last_cseq` (in deque
order) and `mem_size` is the sum of their sizes.  The non-empty branch also
records `1 ≤ first_cseq`, which holds for every transaction the program
constructs (`Transaction::new` uses `next_cseq ≥ 1`) and is what makes the
invariant inductive: `enque`'s sequencing check tests `last_cseq != 0`,
which coincides with non-emptiness only for positive cseqs. -/
def PBInvParts (l : List Transaction) (mem first last : Nat) : Prop :=
  (l = [] ∧ first = 0 ∧ last = 0 ∧ mem = 0)
  ∨ (l ≠ [] ∧ 1 ≤ first
      ∧ last + 1 = first + l.length
      ∧ l.map Transaction.cseq = List.range' first l.length
      ∧ mem = (l.map Transaction.size).sum)

instance (l : List Transaction) (mem first last : Nat) :
    Decidable (PBInvParts l mem first last) := by
  unfold PBInvParts; infer_instance

/-- The push-buffer invariant of a `MemoryPushBuffer`. -/
def PushBufferInv (b : MemoryPushBuffer) : Prop :=
  PBInvParts b.transaction b.mem_size b.first_cseq b.last_cseq

instance (b : MemoryPushBuffer) : Decidable (PushBufferInv b) := by
  unfold PushBufferInv; infer_instance

lemma dequeGo_cons_le {upto : Nat} {tx : Transaction} {rest : List Transaction}
    {mem first last : Nat} (h : tx.cseq ≤ upto) :
    dequeGo upto (tx :: rest) mem first last =
      ((tx :: (dequeGo upto rest (mem - tx.size)
          (match rest with | front :: _ => front.cseq | [] => 0)
          (match rest with | _ :: _ => last | [] => 0)).1),
        (dequeGo upto rest (mem - tx.size)
          (match rest with | front :: _ => front.cseq | [] => 0)
          (match rest with | _ :: _ => last | [] => 0)).2) := by
  simp only [dequeGo, if_pos h]

lemma dequeGo_cons_gt {upto : Nat} {tx : Transaction} {rest : List Transaction}
    {mem first last : Nat} (h : ¬ tx.cseq ≤ upto) :
    dequeGo upto (tx :: rest) mem first last = ([], tx :: rest, mem, first, last) := by
  simp only [dequeGo, if_neg h]

/-- The de-queueing loop preserves the push-buffer invariant. -/
lemma dequeGo_inv (upto : Nat) :
    ∀ (l : List Transaction) (mem first last : Nat),
      PBInvParts l mem first last →
      PBInvParts (dequeGo upto l mem first last).2.1
        (dequeGo upto l mem first last).2.2.1
        (dequeGo upto l mem first last).2.2.2.1
        (dequeGo upto l mem first last).2.2.2.2 := by
  intro l
  induction l with
  | nil =>
    intro mem first last hinv
    rcases hinv with ⟨-, h1, h2, h3⟩ | ⟨hne, -⟩
    · exact Or.inl ⟨rfl, h1, h2, h3⟩
    · exact absurd rfl hne
  | cons tx rest ih =>
    intro mem first last hinv
    rcases hinv with ⟨habs, -⟩ | ⟨-, hfirst, hlen, hctg, hmem⟩
    · exact absurd habs (by simp)
    simp only [List.length_cons, List.map_cons, List.range'_succ] at hctg
    have htx : tx.cseq = first := (List.cons.injEq _ _ _ _ ▸ hctg).1
    have hrest : rest.map Transaction.cseq = List.range' (first + 1) rest.length :=
      (List.cons.injEq _ _ _ _ ▸ hctg).2
    rw [List.map_cons, List.sum_cons] at hmem
    by_cases hle : tx.cseq ≤ upto
    · rw [dequeGo_cons_le hle]
      cases rest with
      | nil =>
        refine Or.inl ⟨rfl, rfl, rfl, ?_⟩
        simp only [List.map_nil, List.sum_nil] at hmem
        simp [dequeGo]
        omega
      | cons front t =>
        have hfront : front.cseq = first + 1 := by
          simp only [List.length_cons, List.map_cons, List.range'_succ] at hrest
          exact (List.cons.injEq _ _ _ _ ▸ hrest).1
        refine ih (mem - tx.size) front.cseq last ?_
        refine Or.inr ⟨by simp, by omega, ?_, ?_, ?_⟩
        · simp only [List.length_cons] at hlen ⊢
          omega
        · rw [hfront]; exact hrest
        · omega
    · rw [dequeGo_cons_gt hle]
      refine Or.inr ⟨by simp, hfirst, by simpa using hlen, ?_, by simp [hmem]⟩
      simp only [List.length_cons, List.map_cons, List.range'_succ]
      rw [htx]
      exact List.cons.injEq _ _ _ _ ▸ ⟨rfl, hrest⟩

/-- A successful `enque` of a transaction with positive cseq preserves the
push-buffer invariant. -/
lemma enque_inv {b b' : MemoryPushBuffer} {tx : Transaction}
    (hinv : PushBufferInv b) (hcseq : 1 ≤ tx.cseq)
    (h : b.enque tx = .ok b') : PushBufferInv b' := by
  unfold MemoryPushBuffer.enque at h
  split at h
  · exact absurd h (by simp)
  split at h
  · exact absurd h (by simp)
  rename_i hseq hmem
  obtain rfl : _ = b' := (by simpa using h : _)
  rcases hinv with ⟨he, hf, hl, hm⟩ | ⟨hne, hfirst, hlen, hctg, hmem'⟩
  · refine Or.inr ⟨?_, ?_, ?_, ?_, ?_⟩
    · simp [he]
    · simpa [hf] using hcseq
    · simp [he, hf]
    · simp [he, hf, List.range'_one]
    · simp [he, hm]
  · have hpos : 1 ≤ b.transaction.length := List.length_pos.mpr hne
    have hl0 : b.last_cseq ≠ 0 := by omega
    have hlast : b.last_cseq + 1 = tx.cseq := by
      by_contra hne'
      exact hseq ⟨hl0, hne'⟩
    have hf0 : ¬ b.first_cseq = 0 := by omega
    refine Or.inr ⟨by simp, ?_, ?_, ?_, ?_⟩
    · rw [if_neg hf0]; exact hfirst
    · rw [if_neg hf0]
      simp only [List.length_append, List.length_cons, List.length_nil]
      omega
    · rw [if_neg hf0]
      simp only [List.map_append, List.length_append, List.map_cons, List.map_nil,
        List.length_cons, List.length_nil]
      have hlen1 : b.transaction.length + (0 + 1) = b.transaction.length + 1 := rfl
      rw [hlen1, List.range'_concat, hctg, one_mul]
      have htxc : b.first_cseq + b.transaction.length = tx.cseq := by omega
      rw [htxc]
    · simp only [List.map_append, List.map_cons, List.map_nil, List.sum_append,
        List.sum_cons, List.sum_nil]
      omega

/-- `deque` preserves the push-buffer invariant. -/
lemma deque_inv {b : MemoryPushBuffer} (upto : Nat) (hinv : PushBufferInv b) :
    PushBufferInv (b.deque upto).2 := by
  unfold MemoryPushBuffer.deque
  split
  · exact hinv
  split
  · exact Or.inl ⟨rfl, rfl, rfl, rfl⟩
  · exact dequeGo_inv upto b.transaction b.mem_size b.first_cseq b.last_cseq hinv

/-- The invariant is exactly the claimed property: when non-empty, the cseq
values carried by the stored transactions are exactly the contiguous range
`first_cseq, …, last_cseq` and `mem_size` is the sum of the sizes. -/
lemma inv_contiguity {b : MemoryPushBuffer} (hinv : PushBufferInv b) :
    (b.transaction = [] ∧ b.first_cseq = 0 ∧ b.last_cseq = 0 ∧ b.mem_size = 0)
    ∨ (b.transaction.map Transaction.cseq
          = List.range' b.first_cseq (b.last_cseq + 1 - b.first_cseq)
        ∧ b.mem_size = (b.transaction.map Transaction.size).sum) := by
  rcases hinv with ⟨he, hf, hl, hm⟩ | ⟨-, -, hlen, hctg, hmem⟩
  · exact Or.inl ⟨he, hf, hl, hm⟩
  · refine Or.inr ⟨?_, hmem⟩
    have : b.last_cseq + 1 - b.first_cseq = b.transaction.length := by omega
    rw [this]; exact hctg

/-- C3: the push-buffer invariant — empty with `first_cseq = last_cseq =
mem_size = 0`, or exactly the contiguous cseq range `{first_cseq, …,
last_cseq}` with `mem_size = Σ size` — holds for a fresh buffer and is
preserved by `enque` (whether it succeeds or fails: a failing `enque`
returns before any mutation, which the embedding renders by keeping the
old buffer) and by `deque`; `get_after` never writes through its `&mut`
receiver and is embedded as a pure function, so it cannot disturb the
invariant.  The `enque` clause assumes `1 ≤ tx.cseq`, which holds for
every transaction the program builds (`Transaction::new` draws the cseq
from `next_cseq`, which returns `cseq + 1`). -/
theorem pushBuffer_invariant_holds :
    (∀ opt : DatatypeOption, PushBufferInv (MemoryPushBuffer.new opt))
    ∧ (∀ (b : MemoryPushBuffer) (tx : Transaction), PushBufferInv b → 1 ≤ tx.cseq →
        PushBufferInv (match b.enque tx with | .ok b' => b' | .error _ => b))
    ∧ (∀ (b : MemoryPushBuffer) (upto : Nat), PushBufferInv b →
        PushBufferInv (b.deque upto).2)
    ∧ (∀ b : MemoryPushBuffer, PushBufferInv b →
        (b.transaction = [] ∧ b.first_cseq = 0 ∧ b.last_cseq = 0 ∧ b.mem_size = 0)
        ∨ (b.transaction.map Transaction.cseq
              = List.range' b.first_cseq (b.last_cseq + 1 - b.first_cseq)
            ∧ b.mem_size = (b.transaction.map Transaction.size).sum)) := by
  refine ⟨?_, ?_, ?_, ?_⟩
  · intro opt; exact Or.inl ⟨rfl, rfl, rfl, rfl⟩
  · intro b tx hinv hcseq
    cases h : b.enque tx with
    | ok b' => exact enque_inv hinv hcseq h
    | error e => exact hinv
  · intro b upto hinv; exact deque_inv upto hinv
  · intro b hinv; exact inv_contiguity hinv

/-- A concrete transaction used by the witnesses below. -/
def sampleTx1 : Transaction :=
  { cuid := 7, cseq := 1, sseq := 0, tag := none, event := false,
    operations := [Operation.new_counter_increase 3] }

/-- A concrete buffer holding `sampleTx1`; it is exactly what `enque`
produces from a fresh buffer. -/
def sampleBuf1 : MemoryPushBuffer :=
  { transaction := [sampleTx1], mem_size := sampleTx1.size,
    option := DatatypeOption.default, first_cseq := 1, last_cseq := 1 }

/-- Witness for C3 at a concrete input: the enque clause applied to a fresh
buffer and `sampleTx1`. -/
theorem pushBuffer_invariant_holds_witness :
    PushBufferInv (match (MemoryPushBuffer.new DatatypeOption.default).enque sampleTx1 with
      | .ok b' => b' | .error _ => MemoryPushBuffer.new DatatypeOption.default) :=
  pushBuffer_invariant_holds.2.1 (MemoryPushBuffer.new DatatypeOption.default) sampleTx1
    (by decide) (by decide)

/-! ### C4: `get_after` beyond `last_cseq` -/

instance {ε α : Type} [DecidableEq ε] [DecidableEq α] : DecidableEq (Except ε α) :=
  fun x y =>
    match x, y with
    | .ok a, .ok b =>
      if h : a = b then .isTrue (by rw [h])
      else .isFalse (fun hc => h (Except.ok.injEq _ _ ▸ hc))
    | .error a, .error b =>
      if h : a = b then .isTrue (by rw [h])
      else .isFalse (fun hc => h (Except.error.injEq _ _ ▸ hc))
    | .ok _, .error _ => .isFalse (fun hc => Except.noConfusion hc)
    | .error _, .ok _ => .isFalse (fun hc => Except.noConfusion hc)

/-- Unfolding equation for `get_after` with the `let` binding inlined. -/
lemma get_after_eq (b : MemoryPushBuffer) (cseq maxMem : Nat) :
    b.get_after cseq maxMem =
      if cseq = 0 ∨ cseq < b.first_cseq then .error .failToGetAfter
      else if b.transaction.length ≤ cseq - b.first_cseq then .error .failToGetAfter
      else .ok (getAfterCollect (b.transaction.drop (cseq - b.first_cseq)) maxMem 0) :=
  rfl

/-- Counterexample to C4 as stated: `sampleBuf1` is reachable (it is the
result of `enque`-ing `sampleTx1` into a fresh buffer), satisfies the
invariant, and has `first_cseq = last_cseq = 1`; yet `get_after 2 cap` —
a cseq beyond `last_cseq`, neither zero nor below `first_cseq` — returns
`FailToGetAfter` instead of the empty result the claim promises.  The
source's own test expects this error (`get_after(101, …)` after filling
cseqs 1..100). -/
theorem get_after_beyond_last_errors :
    (MemoryPushBuffer.new DatatypeOption.default).enque sampleTx1 = .ok sampleBuf1
    ∧ PushBufferInv sampleBuf1
    ∧ sampleBuf1.first_cseq = 1 ∧ sampleBuf1.last_cseq = 1
    ∧ sampleBuf1.get_after 2 4194304 = .error .failToGetAfter := by
  refine ⟨by decide, by decide, rfl, rfl, by decide⟩

/-- The `get_after` collection loop returns the longest prefix of the
remaining transactions whose cumulative size, added to the running total,
stays within `maxMem`. -/
lemma getAfterCollect_spec :
    ∀ (l : List Transaction) (maxMem total : Nat), total ≤ maxMem →
      ∃ n, getAfterCollect l maxMem total = l.take n
        ∧ total + (((l.take n).map Transaction.size).sum) ≤ maxMem
        ∧ ∀ m, m ≤ l.length →
            total + (((l.take m).map Transaction.size).sum) ≤ maxMem → m ≤ n := by
  intro l
  induction l with
  | nil =>
    intro maxMem total htot
    exact ⟨0, rfl, by simpa using htot, fun m hm _ => by simpa using hm⟩
  | cons tx rest ih =>
    intro maxMem total htot
    by_cases hover : maxMem < total + tx.size
    · refine ⟨0, ?_, by simpa using htot, ?_⟩
      · simp [getAfterCollect, hover]
      · intro m hm hsum
        cases m with
        | zero => exact Nat.le_refl 0
        | succ k =>
          exfalso
          simp only [List.take_succ_cons, List.map_cons, List.sum_cons] at hsum
          omega
    · have htot' : total + tx.size ≤ maxMem := by omega
      obtain ⟨n, heq, hsum, hmax⟩ := ih maxMem (total + tx.size) htot'
      refine ⟨n + 1, ?_, ?_, ?_⟩
      · simp [getAfterCollect, hover, heq]
      · simp only [List.take_succ_cons, List.map_cons, List.sum_cons]
        omega
      · intro m hm hsum'
        cases m with
        | zero => exact Nat.zero_le _
        | succ k =>
          simp only [List.take_succ_cons, List.map_cons, List.sum_cons] at hsum'
          have : k ≤ n := by
            refine hmax k (by simpa using hm) (by omega)
          omega

/-- C4 (amended): under the push-buffer invariant, `get_after(cseq, cap)`
fails with `FailToGetAfter` exactly when `cseq = 0`, `cseq < first_cseq`,
or `cseq > last_cseq` (in particular, a cseq beyond `last_cseq` is an
error, not an empty result); otherwise it returns the longest contiguous
run of buffered transactions starting at index `cseq - first_cseq` whose
cumulative size does not exceed `cap`. -/
theorem get_after_amended (b : MemoryPushBuffer) (cseq cap : Nat)
    (hinv : PushBufferInv b) :
    ((∃ e, b.get_after cseq cap = .error e)
        ↔ (cseq = 0 ∨ cseq < b.first_cseq ∨ b.last_cseq < cseq))
    ∧ (∀ res, b.get_after cseq cap = .ok res →
        ∃ n, res = (b.transaction.drop (cseq - b.first_cseq)).take n
          ∧ ((res.map Transaction.size).sum) ≤ cap
          ∧ ∀ m, m ≤ (b.transaction.drop (cseq - b.first_cseq)).length →
              (((b.transaction.drop (cseq - b.first_cseq)).take m).map
                Transaction.size).sum ≤ cap → m ≤ n) := by
  have hlen : b.transaction.length + b.first_cseq = b.last_cseq + 1
      ∨ (b.transaction = [] ∧ b.first_cseq = 0 ∧ b.last_cseq = 0) := by
    rcases hinv with ⟨he, hf, hl, -⟩ | ⟨-, -, hlen, -, -⟩
    · exact Or.inr ⟨he, hf, hl⟩
    · exact Or.inl (by omega)
  constructor
  · constructor
    · rintro ⟨e, he⟩
      rw [get_after_eq] at he
      split at he
      · rename_i hcond
        rcases hcond with h0 | hlt
        · exact Or.inl h0
        · exact Or.inr (Or.inl hlt)
      · split at he
        · rename_i hcond hidx
          push_neg at hcond
          rcases hlen with hlen | ⟨he', hf, hl⟩
          · exact Or.inr (Or.inr (by omega))
          · exact Or.inr (Or.inr (by omega))
        · exact absurd he (by simp)
    · intro hcond
      rw [get_after_eq]
      by_cases hc : cseq = 0 ∨ cseq < b.first_cseq
      · rw [if_pos hc]; exact ⟨_, rfl⟩
      · rw [if_neg hc]
        push_neg at hc
        have hbeyond : b.last_cseq < cseq := by
          rcases hcond with h | h | h
          · omega
          · omega
          · exact h
        have hidx : b.transaction.length ≤ cseq - b.first_cseq := by
          rcases hlen with hlen | ⟨he', hf, hl⟩
          · omega
          · simp [he']
        rw [if_pos hidx]
        exact ⟨_, rfl⟩
  · intro res hres
    rw [get_after_eq] at hres
    split at hres
    · exact absurd hres (by simp)
    split at hres
    · exact absurd hres (by simp)
    obtain rfl : _ = res := (by simpa using hres : _)
    obtain ⟨n, heq, hsum, hmax⟩ :=
      getAfterCollect_spec (b.transaction.drop (cseq - b.first_cseq)) cap 0 (Nat.zero_le _)
    refine ⟨n, heq, ?_, fun m hm hs => hmax m hm (by simpa using hs)⟩
    rw [heq]
    simpa using hsum

/-- Witness for the amended C4 at a concrete input: `sampleBuf1` with
`cseq = 1` (a valid query). -/
theorem get_after_amended_witness :
    ((∃ e, sampleBuf1.get_after 1 4194304 = .error e)
        ↔ (1 = 0 ∨ 1 < sampleBuf1.first_cseq ∨ sampleBuf1.last_cseq < 1))
    ∧ (∀ res, sampleBuf1.get_after 1 4194304 = .ok res →
        ∃ n, res = (sampleBuf1.transaction.drop (1 - sampleBuf1.first_cseq)).take n
          ∧ ((res.map Transaction.size).sum) ≤ 4194304
          ∧ ∀ m, m ≤ (sampleBuf1.transaction.drop (1 - sampleBuf1.first_cseq)).length →
              (((sampleBuf1.transaction.drop (1 - sampleBuf1.first_cseq)).take m).map
                Transaction.size).sum ≤ 4194304 → m ≤ n) :=
  get_after_amended sampleBuf1 1 4194304 (by decide)

/-! ### C10: enque after a draining deque -/

/-- C10: once `deque(upto)` has drained the buffer (any `upto` beyond
`last_cseq` under the invariant), the next `enque` can never return
`NonSequentialCseq`: for every transaction within the memory bound it
succeeds — whatever its cseq, even one unrelated to the drained history —
and leaves `first_cseq = last_cseq = tx.cseq`, because the sequencing
check in `enque` fires only when `last_cseq` is non-zero. -/
theorem enque_after_drain_succeeds (b : MemoryPushBuffer) (upto : Nat)
    (tx : Transaction) (hinv : PushBufferInv b) (hdrain : b.last_cseq < upto)
    (hfit : tx.size ≤ b.option.max_mem_size_of_push_buffer) :
    (b.deque upto).2.first_cseq = 0 ∧ (b.deque upto).2.last_cseq = 0
    ∧ (b.deque upto).2.transaction = [] ∧ (b.deque upto).2.mem_size = 0
    ∧ (b.deque upto).2.enque tx
        = .ok { transaction := [tx], mem_size := tx.size, option := b.option,
                first_cseq := tx.cseq, last_cseq := tx.cseq }
    ∧ (b.deque upto).2.enque tx ≠ .error .nonSequentialCseq := by
  have hnotlt : ¬ upto < b.first_cseq := by
    rcases hinv with ⟨-, hf, -, -⟩ | ⟨hne, -, hlen, -, -⟩
    · omega
    · have : 1 ≤ b.transaction.length := List.length_pos.mpr hne
      omega
  have hb' : (b.deque upto).2
      = { b with transaction := [], mem_size := 0, first_cseq := 0, last_cseq := 0 } := by
    unfold MemoryPushBuffer.deque
    rw [if_neg hnotlt, if_pos hdrain]
  rw [hb']
  refine ⟨rfl, rfl, rfl, rfl, ?_, ?_⟩
  · unfold MemoryPushBuffer.enque
    rw [if_neg (by simp), if_neg (by simpa using hfit)]
    simp
  · unfold MemoryPushBuffer.enque
    rw [if_neg (by simp), if_neg (by simpa using hfit)]
    simp

/-- Witness for C10 at a concrete input: drain `sampleBuf1` with
`deque 5` and enqueue a transaction with the unrelated cseq 42. -/
theorem enque_after_drain_succeeds_witness :
    ((sampleBuf1.deque 5).2.first_cseq = 0 ∧ (sampleBuf1.deque 5).2.last_cseq = 0
    ∧ (sampleBuf1.deque 5).2.transaction = [] ∧ (sampleBuf1.deque 5).2.mem_size = 0
    ∧ (sampleBuf1.deque 5).2.enque { sampleTx1 with cseq := 42 }
        = .ok { transaction := [{ sampleTx1 with cseq := 42 }],
                mem_size := Transaction.size { sampleTx1 with cseq := 42 },
                option := sampleBuf1.option, first_cseq := 42, last_cseq := 42 }
    ∧ (sampleBuf1.deque 5).2.enque { sampleTx1 with cseq := 42 }
        ≠ .error .nonSequentialCseq) :=
  enque_after_drain_succeeds sampleBuf1 5 { sampleTx1 with cseq := 42 }
    (by decide) (by decide) (by decide)

/-! ### CRDT core and MutableDatatype (datatypes/mutable.rs, datatypes/rollback.rs) -/

/-- `DatatypeError` from errors/datatypes.rs (payloads embedded as strings). -/
inductive DatatypeError where
  | failedBuildDatatype (msg : String)
  | failedTransaction (msg : String)
  | failedToDeserialize (msg : String)
  | failedToExecuteOperation (msg : String)
  | failureInEventLoop (msg : String)
  | failedToWrite (msg : String)
  | failedToPushPull (msg : String)
deriving DecidableEq, Repr

/-- `ReturnType` from datatypes/common.rs. -/
inductive ReturnType where
  | none
  | counter (value : Int)
deriving DecidableEq, Repr

/-- Modelled from the spec: the datatypes/crdts module is not among the
sources.  The CRDT is a tagged variant (only `Counter` is implemented); a
counter holds a 64-bit signed value, modelled as `Int` (per the spec,
increments commute and overflow is not a semantic error at this layer). -/
inductive Crdt where
  | counter (value : Int)
deriving DecidableEq, Repr

/-- Modelled from the spec: `Crdt::new` for `DataType::Counter` starts the
counter at zero. -/
def Crdt.new : Crdt := .counter 0

/-- Modelled from the spec: applying an operation to the CRDT.  A
`CounterIncrease` adds its delta and returns the new counter value; the
test-only `Delay4Test` body succeeds or fails according to its `success`
flag (operations/body.rs `run`), leaving the counter untouched.  The CRDT
rejects an operation by returning an error and changing nothing. -/
def Crdt.execute_local_operation : Crdt → Operation →
    Except DatatypeError (ReturnType × Crdt)
  | .counter v, op =>
    match op.body with
    | .counterIncrease delta => .ok (.counter (v + delta), .counter (v + delta))
    | .delay4Test _ success =>
      if success then .ok (.none, .counter v)
      else .error (.failedToExecuteOperation "Delay4Test failed")

/-- The CRDT result depends only on the operation body, not its lamport
stamp. -/
lemma Crdt.execute_set_lamport (c : Crdt) (op : Operation) (l : Nat) :
    c.execute_local_operation (op.set_lamport l) = c.execute_local_operation op := by
  cases c; rfl

/-- `Rollback` from datatypes/rollback.rs: the last-known-good snapshot. -/
structure Rollback where
  shadow_crdt : Crdt
  op_id : OperationId
  state : DatatypeState
deriving DecidableEq, Repr

/-- `Rollback::new`. -/
def Rollback.new (crdt : Crdt) (state : DatatypeState) (op_id : OperationId) : Rollback :=
  { shadow_crdt := crdt, op_id := op_id, state := state }

/-- `MutableDatatype` from datatypes/mutable.rs (its `attr` is represented
by the cuid recorded in `op_id`; the other attribute fields play no role in
the embedded operations). -/
structure MutableDatatype where
  crdt : Crdt
  state : DatatypeState
  op_id : OperationId
  transaction : Option Transaction
  rollback : Rollback
  push_buffer : MemoryPushBuffer
  checkpoint : CheckPoint
deriving DecidableEq, Repr

/-- `MutableDatatype::new` for a counter datatype of a client with the
given cuid. -/
def MutableDatatype.new (cuid : Nat) (option : DatatypeOption)
    (state : DatatypeState) : MutableDatatype :=
  let crdt := Crdt.new
  let op_id := OperationId.new_with_cuid cuid
  { crdt := crdt, state := state, op_id := op_id, transaction := Option.none,
    rollback := Rollback.new crdt state op_id,
    push_buffer := MemoryPushBuffer.new option,
    checkpoint := CheckPoint.default }

/-- The inner loop of `MutableDatatype::replay_push_buffer` over one
transaction's operations (`replay_local_operation`): set the replayed
lamport on the transaction-derived id, `sync` the datatype's id with it,
and re-execute the operation against the CRDT; a CRDT error is
`unreachable!` in the source, rendered as `none`. -/
def replayTxOps : Crdt → OperationId → OperationId → List Operation →
    Option (Crdt × OperationId)
  | c, oid, _, [] => some (c, oid)
  | c, oid, tx_oid, op :: rest =>
    let tx_oid' := { tx_oid with lamport := op.lamport }
    let oid' := oid.sync tx_oid'
    match c.execute_local_operation op with
    | .ok (_, c') => replayTxOps c' oid' tx_oid' rest
    | .error _ => none

/-- `MutableDatatype::replay_push_buffer` over the buffered transactions:
transactions of this client (`tx.cuid == op_id.cuid`) are re-executed
operation by operation; remote ones are skipped (the source marks remote
replay as TODO). -/
def replayPushBufferList : Crdt → OperationId → List Transaction →
    Option (Crdt × OperationId)
  | c, oid, [] => some (c, oid)
  | c, oid, tx :: rest =>
    if tx.cuid = oid.cuid then
      match replayTxOps c oid tx.get_op_id tx.operations with
      | some (c', oid') => replayPushBufferList c' oid' rest
      | none => none
    else replayPushBufferList c oid rest

/-- `MutableDatatype::do_rollback`: overwrite `op_id`, `state`, and `crdt`
from the rollback shadow, then replay the push buffer (which rewrites
`crdt` and `op_id` once more).  `none` renders the `unreachable!` panic
inside the replay. -/
def MutableDatatype.do_rollback (m : MutableDatatype) : Option MutableDatatype :=
  (replayPushBufferList m.rollback.shadow_crdt m.rollback.op_id
      m.push_buffer.transaction).map
    (fun p => { m with crdt := p.1, op_id := p.2, state := m.rollback.state })

/-- `MutableDatatype::end_transaction`.  `none` renders the `todo!` /
`unreachable!` panics on an `enque` error in the committed path and the
`unreachable!` inside the rollback replay. -/
def MutableDatatype.end_transaction (m : MutableDatatype) (tag : Option String)
    (committed : Bool) : Option (Bool × MutableDatatype) :=
  if committed then
    match m.transaction with
    | some tx0 =>
      let tx := tx0.set_tag tag
      let m1 := { m with transaction := Option.none }
      if tx.cuid = m1.op_id.cuid then
        match m1.push_buffer.enque tx with
        | .ok pb => some (true, { m1 with push_buffer := pb })
        | .error _ => none
      else some (true, m1)
    | Option.none => some (false, m)
  else
    m.do_rollback.map (fun m' => (false, m'))

/-- `MutableDatatype::execute_local_operation` from datatypes/mutable.rs:
open a transaction if none is open, stamp the operation with
`next_lamport`, apply it to the CRDT; on success append it to the open
transaction, on failure undo the id bumps (`prev_cseq` when this call
opened the transaction, then `prev_lamport`) and drop the freshly opened
transaction. -/
def MutableDatatype.execute_local_operation (m : MutableDatatype) (op : Operation) :
    Except DatatypeError ReturnType × MutableDatatype :=
  let is_new_tx := m.transaction.isNone
  let m1 := if is_new_tx then
      let p := Transaction.new m.op_id
      { m with transaction := some p.1, op_id := p.2 }
    else m
  let p2 := m1.op_id.next_lamport
  let op1 := op.set_lamport p2.1
  let m2 := { m1 with op_id := p2.2 }
  match m2.crdt.execute_local_operation op1 with
  | .ok (r, c') =>
    (.ok r,
      { m2 with
        crdt := c'
        transaction := (match m2.transaction with
          | some tx => some (tx.push_operation op1)
          | Option.none => Option.none) })
  | .error e =>
    let m3 := if is_new_tx then
        { m2 with op_id := m2.op_id.prev_cseq, transaction := Option.none }
      else m2
    (.error e, { m3 with op_id := m3.op_id.prev_lamport })

/-! ### C1: rollback discipline -/

/-- Executing a list of operations in sequence (the body of one user
transaction on a `MutableDatatype`). -/
def MutableDatatype.runOps (m : MutableDatatype) (ops : List Operation) : MutableDatatype :=
  ops.foldl (fun acc op => (acc.execute_local_operation op).2) m

/-- One committed user transaction: run its operations, then
`end_transaction(tag, committed = true)`. -/
def commitOne (m : MutableDatatype) (ops : List Operation) : Option MutableDatatype :=
  ((m.runOps ops).end_transaction Option.none true).map (·.2)

/-- A sequence of committed user transactions. -/
def runCommitted (m : MutableDatatype) (txs : List (List Operation)) :
    Option MutableDatatype :=
  txs.foldlM commitOne m

/-- The CRDT evolution of executing a list of operations; `none` when some
operation is rejected. -/
def applyOps : Crdt → List Operation → Option Crdt
  | c, [] => some c
  | c, op :: rest =>
    match c.execute_local_operation op with
    | .ok p => applyOps p.2 rest
    | .error _ => Option.none

/-- The CRDT evolution of replaying a buffer of transactions for the
client `u`: transactions of other clients are skipped. -/
def crdtReplay (u : Nat) : Crdt → List Transaction → Option Crdt
  | c, [] => some c
  | c, tx :: rest =>
    if tx.cuid = u then
      match applyOps c tx.operations with
      | some c' => crdtReplay u c' rest
      | Option.none => Option.none
    else crdtReplay u c rest

lemma applyOps_append (l1 l2 : List Operation) :
    ∀ c, applyOps c (l1 ++ l2) = (applyOps c l1).bind (fun c' => applyOps c' l2) := by
  induction l1 with
  | nil => intro c; simp [applyOps]
  | cons op rest ih =>
    intro c
    simp only [List.cons_append, applyOps]
    cases c.execute_local_operation op with
    | ok p => exact ih p.2
    | error e => rfl

lemma crdtReplay_append (u : Nat) (l1 l2 : List Transaction) :
    ∀ c, crdtReplay u c (l1 ++ l2)
      = (crdtReplay u c l1).bind (fun c' => crdtReplay u c' l2) := by
  induction l1 with
  | nil => intro c; simp [crdtReplay]
  | cons tx rest ih =>
    intro c
    simp only [List.cons_append, crdtReplay]
    by_cases hcu : tx.cuid = u
    · rw [if_pos hcu, if_pos hcu]
      cases applyOps c tx.operations with
      | some c' => exact ih c'
      | none => rfl
    · rw [if_neg hcu, if_neg hcu]
      exact ih c

lemma replayTxOps_cuid :
    ∀ (ops : List Operation) (c : Crdt) (oid tx_oid : OperationId) (p : Crdt × OperationId),
      replayTxOps c oid tx_oid ops = some p → p.2.cuid = oid.cuid := by
  intro ops
  induction ops with
  | nil =>
    intro c oid tx_oid p h
    obtain rfl : (c, oid) = p := by simpa [replayTxOps] using h
    rfl
  | cons op rest ih =>
    intro c oid tx_oid p h
    simp only [replayTxOps] at h
    cases hcr : c.execute_local_operation op with
    | ok q =>
      obtain ⟨r, c'⟩ := q
      rw [hcr] at h
      exact ih c' (oid.sync { tx_oid with lamport := op.lamport })
        { tx_oid with lamport := op.lamport } p h
    | error e => rw [hcr] at h; exact absurd h (by simp)

lemma replayTxOps_fst :
    ∀ (ops : List Operation) (c : Crdt) (oid tx_oid : OperationId),
      (replayTxOps c oid tx_oid ops).map Prod.fst = applyOps c ops := by
  intro ops
  induction ops with
  | nil => intro c oid tx_oid; rfl
  | cons op rest ih =>
    intro c oid tx_oid
    simp only [replayTxOps, applyOps]
    cases hcr : c.execute_local_operation op with
    | ok q => exact ih q.2 _ _
    | error e => rfl

/-- The full replay agrees with the pure CRDT replay on the CRDT
component, as long as the threaded id keeps the client's cuid. -/
lemma replayPushBufferList_fst (u : Nat) :
    ∀ (l : List Transaction) (c : Crdt) (oid : OperationId), oid.cuid = u →
      (replayPushBufferList c oid l).map Prod.fst = crdtReplay u c l := by
  intro l
  induction l with
  | nil => intro c oid hu; rfl
  | cons tx rest ih =>
    intro c oid hu
    simp only [replayPushBufferList, crdtReplay, hu]
    by_cases hcu : tx.cuid = u
    · rw [if_pos hcu, if_pos hcu]
      cases hrto : replayTxOps c oid tx.get_op_id tx.operations with
      | some p =>
        have hfst := replayTxOps_fst tx.operations c oid tx.get_op_id
        rw [hrto] at hfst
        rw [← hfst]
        simp only [Option.map_some]
        have hcuid : p.2.cuid = u := (replayTxOps_cuid tx.operations c oid tx.get_op_id p hrto).trans hu
        exact ih p.1 p.2 hcuid
      | none =>
        have hfst := replayTxOps_fst tx.operations c oid tx.get_op_id
        rw [hrto] at hfst
        rw [← hfst]
        rfl
    · rw [if_neg hcu, if_neg hcu]
      exact ih c oid hu

/-- The inductive invariant threaded through a run of user transactions on
a datatype of client `u` whose rollback shadow is `c0`: the ids carry `u`,
the shadow is untouched, and replaying the push buffer from the shadow
reproduces the current CRDT — exactly when no transaction is open, and up
to the pending open transaction's operations otherwise. -/
def ReplayInv (u : Nat) (c0 : Crdt) (m : MutableDatatype) : Prop :=
  m.op_id.cuid = u
  ∧ m.rollback.op_id.cuid = u
  ∧ m.rollback.shadow_crdt = c0
  ∧ (match m.transaction with
     | Option.none => crdtReplay u c0 m.push_buffer.transaction = some m.crdt
     | some tx => tx.cuid = u
         ∧ ∃ cPre, crdtReplay u c0 m.push_buffer.transaction = some cPre
             ∧ applyOps cPre tx.operations = some m.crdt)

/-- A single `execute_local_operation` preserves the replay invariant and
leaves the push buffer and rollback shadow untouched. -/
lemma exec_step (u : Nat) (c0 : Crdt) (m : MutableDatatype) (op : Operation)
    (h : ReplayInv u c0 m) :
    ReplayInv u c0 (m.execute_local_operation op).2
    ∧ (m.execute_local_operation op).2.push_buffer = m.push_buffer
    ∧ (m.execute_local_operation op).2.rollback = m.rollback := by
  obtain ⟨crdt, state, oid, transaction, rollback, pb, cp⟩ := m
  obtain ⟨hcu, hrcu, hsh, hmatch⟩ := h
  simp only at hcu hrcu hsh hmatch
  cases transaction with
  | none =>
    simp only at hmatch
    simp only [MutableDatatype.execute_local_operation, Option.isNone_none, if_true]
    split
    · rename_i r c' heq
      simp only [Transaction.new] at heq
      refine ⟨⟨hcu, hrcu, hsh, ?_⟩, rfl, rfl⟩
      simp only [Transaction.new, Transaction.push_operation]
      refine ⟨hcu, crdt, hmatch, ?_⟩
      simp only [List.nil_append, applyOps, heq]
    · rename_i e heq
      exact ⟨⟨hcu, hrcu, hsh, hmatch⟩, rfl, rfl⟩
  | some tx =>
    simp only at hmatch
    obtain ⟨htxc, cPre, hrep, happ⟩ := hmatch
    simp only [MutableDatatype.execute_local_operation, Option.isNone_some,
      Bool.false_eq_true, if_false]
    split
    · rename_i r c' heq
      refine ⟨⟨hcu, hrcu, hsh, ?_⟩, rfl, rfl⟩
      simp only [Transaction.push_operation]
      refine ⟨htxc, cPre, hrep, ?_⟩
      rw [applyOps_append]
      rw [happ]
      simp only [Option.some_bind, applyOps, heq]
    · rename_i e heq
      exact ⟨⟨hcu, hrcu, hsh, htxc, cPre, hrep, happ⟩, rfl, rfl⟩

/-- A successful `enque` appends the transaction at the back. -/
lemma enque_ok_shape {b b' : MemoryPushBuffer} {tx : Transaction}
    (h : b.enque tx = .ok b') :
    b'.transaction = b.transaction ++ [tx] ∧ b'.option = b.option := by
  unfold MemoryPushBuffer.enque at h
  split at h
  · exact absurd h (by simp)
  split at h
  · exact absurd h (by simp)
  obtain rfl : _ = b' := (by simpa using h : _)
  exact ⟨rfl, rfl⟩

/-- Running a list of operations preserves the replay invariant, the push
buffer, and the rollback shadow. -/
lemma runOps_inv (u : Nat) (c0 : Crdt) :
    ∀ (ops : List Operation) (m : MutableDatatype), ReplayInv u c0 m →
      ReplayInv u c0 (m.runOps ops)
      ∧ (m.runOps ops).push_buffer = m.push_buffer
      ∧ (m.runOps ops).rollback = m.rollback := by
  intro ops
  induction ops with
  | nil => intro m h; exact ⟨h, rfl, rfl⟩
  | cons op rest ih =>
    intro m h
    obtain ⟨h1, h2, h3⟩ := exec_step u c0 m op h
    obtain ⟨g1, g2, g3⟩ := ih (m.execute_local_operation op).2 h1
    exact ⟨g1, g2.trans h2, g3.trans h3⟩

/-- One committed user transaction preserves the replay invariant and
closes the open transaction. -/
lemma commitOne_inv (u : Nat) (c0 : Crdt) (m m' : MutableDatatype)
    (ops : List Operation) (h : ReplayInv u c0 m)
    (hc : commitOne m ops = some m') :
    ReplayInv u c0 m' ∧ m'.transaction = Option.none := by
  obtain ⟨hA, hApb, hArb⟩ := runOps_inv u c0 ops m h
  unfold commitOne MutableDatatype.end_transaction at hc
  simp only [if_true] at hc
  split at hc
  · rename_i tx htx
    obtain ⟨hAcu, hArcu, hAsh, hAm⟩ := hA
    rw [htx] at hAm
    obtain ⟨htxc, cPre, hrep, happ⟩ := hAm
    split at hc
    · split at hc
      · rename_i pb henq
        obtain rfl : _ = m' := (by simpa using hc : _)
        obtain ⟨hshape, -⟩ := enque_ok_shape henq
        refine ⟨⟨hAcu, hArcu, hAsh, ?_⟩, rfl⟩
        rw [hshape, crdtReplay_append, hrep]
        simp only [Option.some_bind, crdtReplay, Transaction.set_tag]
        rw [if_pos htxc, happ]
      · exact absurd hc (by simp)
    · rename_i hguard
      exact absurd (by simp [Transaction.set_tag, htxc, hAcu] :
        (tx.set_tag Option.none).cuid = (m.runOps ops).op_id.cuid) hguard
  · rename_i htx
    obtain rfl : _ = m' := (by simpa using hc : _)
    exact ⟨hA, htx⟩

/-- A run of committed transactions preserves the replay invariant and
ends with no open transaction. -/
lemma runCommitted_inv (u : Nat) (c0 : Crdt) :
    ∀ (txs : List (List Operation)) (m mC : MutableDatatype),
      ReplayInv u c0 m → m.transaction = Option.none →
      runCommitted m txs = some mC →
      ReplayInv u c0 mC ∧ mC.transaction = Option.none := by
  intro txs
  induction txs with
  | nil =>
    intro m mC h htx hc
    obtain rfl : m = mC := by simpa [runCommitted] using hc
    exact ⟨h, htx⟩
  | cons ops rest ih =>
    intro m mC h htx hc
    simp only [runCommitted, List.foldlM_cons] at hc
    cases hone : commitOne m ops with
    | none => rw [hone] at hc; exact absurd hc (by simp)
    | some m1 =>
      rw [hone] at hc
      obtain ⟨h1, h1tx⟩ := commitOne_inv u c0 m m1 ops h hone
      exact ih m1 mC h1 h1tx hc

/-- C1: ending a transaction with `committed = false` rolls back: `op_id`,
`state`, and `crdt` are overwritten from the rollback shadow and the push
buffer is replayed, and afterwards the CRDT equals its value immediately
after the last committed transaction.  Starting from a fresh datatype, any
sequence of committed transactions followed by an aborted one leaves the
CRDT exactly where the committed prefix left it. -/
theorem rollback_restores_committed_value (cuid : Nat) (opt : DatatypeOption)
    (st : DatatypeState) (txs : List (List Operation)) (abortOps : List Operation)
    (mC : MutableDatatype)
    (hrun : runCommitted (MutableDatatype.new cuid opt st) txs = some mC) :
    ∃ mF, (mC.runOps abortOps).end_transaction Option.none false = some (false, mF)
      ∧ mF.crdt = mC.crdt := by
  have h0 : ReplayInv cuid Crdt.new (MutableDatatype.new cuid opt st) :=
    ⟨rfl, rfl, rfl, rfl⟩
  obtain ⟨hC, hCtx⟩ := runCommitted_inv cuid Crdt.new txs _ mC h0 rfl hrun
  obtain ⟨hA, hApb, hArb⟩ := runOps_inv cuid Crdt.new abortOps mC hC
  have h4 := hC.2.2.2
  rw [hCtx] at h4
  have hrep : crdtReplay cuid Crdt.new mC.push_buffer.transaction = some mC.crdt := h4
  have hcuA : (mC.runOps abortOps).rollback.op_id.cuid = cuid := hA.2.1
  have hshA : (mC.runOps abortOps).rollback.shadow_crdt = Crdt.new := hA.2.2.1
  have hfst : (replayPushBufferList (mC.runOps abortOps).rollback.shadow_crdt
      (mC.runOps abortOps).rollback.op_id
      (mC.runOps abortOps).push_buffer.transaction).map Prod.fst = some mC.crdt := by
    rw [replayPushBufferList_fst cuid _ _ _ hcuA, hshA, hApb, hrep]
  obtain ⟨p, hp, hp1⟩ : ∃ p, replayPushBufferList (mC.runOps abortOps).rollback.shadow_crdt
      (mC.runOps abortOps).rollback.op_id (mC.runOps abortOps).push_buffer.transaction
        = some p ∧ p.1 = mC.crdt := by
    cases hx : replayPushBufferList (mC.runOps abortOps).rollback.shadow_crdt
        (mC.runOps abortOps).rollback.op_id (mC.runOps abortOps).push_buffer.transaction with
    | none => rw [hx] at hfst; exact absurd hfst (by simp)
    | some p =>
      rw [hx] at hfst
      exact ⟨p, rfl, by simpa using hfst⟩
  have hdr : (mC.runOps abortOps).do_rollback = some
      { mC.runOps abortOps with
        crdt := p.1
        op_id := p.2
        state := (mC.runOps abortOps).rollback.state } := by
    unfold MutableDatatype.do_rollback
    rw [hp]
    rfl
  refine ⟨{ mC.runOps abortOps with
      crdt := p.1
      op_id := p.2
      state := (mC.runOps abortOps).rollback.state }, ?_, ?_⟩
  · unfold MutableDatatype.end_transaction
    rw [if_neg (by decide : ¬ (false = true)), hdr]
    rfl
  · simpa using hp1

/-- The single committed transaction of the C1 witness run. -/
def c1Tx : Transaction :=
  { cuid := 7, cseq := 1, sseq := 0, tag := Option.none, event := false,
    operations := [⟨2, .counterIncrease 3⟩] }

/-- The push buffer of `c1Committed`. -/
def c1Buf : MemoryPushBuffer :=
  { transaction := [c1Tx], mem_size := 97, option := DatatypeOption.default,
    first_cseq := 1, last_cseq := 1 }

def c1Committed : MutableDatatype :=
  { crdt := .counter 3, state := .dueToCreate, op_id := ⟨7, 1, 2⟩,
    transaction := Option.none,
    rollback := ⟨.counter 0, ⟨7, 0, 0⟩, .dueToCreate⟩,
    push_buffer := c1Buf, checkpoint := ⟨0, 0⟩ }

/-- Witness for C1 at a concrete input: one committed transaction of a
single `CounterIncrease 3`, then a rollback. -/
theorem rollback_restores_committed_value_witness :
    ∃ mF, ((c1Committed.runOps [⟨0, .counterIncrease 100⟩]).end_transaction
        Option.none false) = some (false, mF) ∧ mF.crdt = c1Committed.crdt :=
  rollback_restores_committed_value 7 DatatypeOption.default .dueToCreate
    [[⟨0, .counterIncrease 3⟩]] [⟨0, .counterIncrease 100⟩] c1Committed (by decide)

/-- C2: when the CRDT rejects the operation, `execute_local_operation`
surfaces the error and restores the datatype exactly: the lamport bump is
undone via `prev_lamport`, and when this call opened the transaction the
cseq bump is undone via `prev_cseq` and the open transaction is dropped
again; the CRDT, the push buffer, the open transaction, and every other
field are exactly as before the call (in particular no operation is
appended to any transaction). -/
theorem execute_local_operation_rejected (m : MutableDatatype) (op : Operation)
    (e : DatatypeError) (h : m.crdt.execute_local_operation op = .error e) :
    (m.execute_local_operation op).1 = .error e
    ∧ (m.execute_local_operation op).2 = m := by
  obtain ⟨crdt, state, ⟨u, c, l⟩, transaction, rollback, push_buffer, checkpoint⟩ := m
  simp only at h
  cases transaction with
  | none =>
    constructor <;>
      simp [MutableDatatype.execute_local_operation, Transaction.new,
        OperationId.next_cseq, OperationId.next_lamport, OperationId.prev_cseq,
        OperationId.prev_lamport, Crdt.execute_set_lamport, h]
  | some tx =>
    constructor <;>
      simp [MutableDatatype.execute_local_operation, OperationId.next_lamport,
        OperationId.prev_lamport, Crdt.execute_set_lamport, h]

/-- Witness for C2 at a concrete input: a fresh counter datatype rejecting
a failing `Delay4Test` operation. -/
theorem execute_local_operation_rejected_witness :
    ((MutableDatatype.new 7 DatatypeOption.default .dueToCreate).execute_local_operation
        ⟨0, .delay4Test 0 false⟩).1
      = .error (.failedToExecuteOperation "Delay4Test failed")
    ∧ ((MutableDatatype.new 7 DatatypeOption.default .dueToCreate).execute_local_operation
        ⟨0, .delay4Test 0 false⟩).2
      = MutableDatatype.new 7 DatatypeOption.default .dueToCreate :=
  execute_local_operation_rejected (MutableDatatype.new 7 DatatypeOption.default .dueToCreate)
    ⟨0, .delay4Test 0 false⟩ (.failedToExecuteOperation "Delay4Test failed") (by decide)

/-! ### PushPullPack and PullHandler (types/push_pull_pack.rs, datatypes/pull_handler.rs) -/

/-- `ServerPushPullError` from errors/push_pull.rs. -/
inductive ServerPushPullError where
  | illegalPushRequest (msg : String)
  | failedToCreate (msg : String)
  | failedToSubscribe (msg : String)
deriving DecidableEq, Repr

/-- `ClientPushPullError` from errors/push_pull.rs (the connectivity error
payload embedded as a string). -/
inductive ClientPushPullError where
  | exceedMaxMemSize
  | nonSequentialCseq
  | failToGetAfter
  | failedInConnectivity (msg : String)
  | failedAndAbort (msg : String)
deriving DecidableEq, Repr

/-- `PushPullPack` from types/push_pull_pack.rs (uids embedded as `Nat`,
`Arc<Transaction>` as values). -/
structure PushPullPack where
  collection : String
  cuid : Nat
  duid : Nat
  key : String
  type : DataType
  state : DatatypeState
  checkpoint : CheckPoint
  safe_sseq : Nat
  transactions : List Transaction
  is_readonly : Bool
  has_snapshot : Bool
  error : Option ServerPushPullError
deriving DecidableEq, Repr

/-- `PushPullPack::get_pulled_stub`: copy the identifying fields and the
state, reset checkpoint, transactions, snapshot flag, and error. -/
def PushPullPack.get_pulled_stub (p : PushPullPack) : PushPullPack :=
  { p with
    checkpoint := CheckPoint.default
    transactions := []
    has_snapshot := false
    error := Option.none }

/-- Modelled from the spec: `CheckPoint::check_with` is not among the
sources (types/checkpoint.rs holds only the struct); per the spec it takes
the component-wise maximum, keeping both fields monotone. -/
def CheckPoint.check_with (cp other : CheckPoint) : CheckPoint :=
  { sseq := max cp.sseq other.sseq, cseq := max cp.cseq other.cseq }

/-- The state-derivation of `PullHandler::handle_error_and_datatype_state`
(the `match self.old_state` block): returns the new state together with the
`is_created` flag; every pair outside the table leaves the state unchanged
(the source's TODO arms). -/
def deriveNewState : DatatypeState → DatatypeState → DatatypeState × Bool
  | .dueToCreate, pulled =>
    if pulled = .dueToCreate then (.subscribed, true) else (.dueToCreate, false)
  | .dueToSubscribe, pulled =>
    if pulled = .dueToSubscribe then (.subscribed, false) else (.dueToSubscribe, false)
  | .dueToSubscribeOrCreate, pulled =>
    if pulled = .dueToCreate then (.subscribed, true)
    else if pulled = .dueToSubscribe then (.subscribed, false)
    else (.dueToSubscribeOrCreate, false)
  | old, _ => (old, false)

/-- The error stage of `PullHandler::handle_error_and_datatype_state`:
`IllegalPushRequest` aborts with `FailedAndAbort`, `FailedToCreate` falls
through to the state table (TODO arm), `FailedToSubscribe` is a `todo!`
panic, rendered as `none`. -/
def handleErrorAndDatatypeState (pulled : PushPullPack) (old : DatatypeState) :
    Option (Except ClientPushPullError (DatatypeState × Bool)) :=
  match pulled.error with
  | some (.illegalPushRequest reason) => some (.error (.failedAndAbort reason))
  | some (.failedToSubscribe _) => Option.none
  | some (.failedToCreate _) => some (.ok (deriveNewState old pulled.state))
  | Option.none => some (.ok (deriveNewState old pulled.state))

/-- `PullHandler::apply`: derive the state (aborting on a server error),
skip/execute transactions (both TODO no-ops in the source), sync the
checkpoint via `check_with`, and commit the state in `wrap_up` only when it
changed. -/
def PullHandler.apply (pulled : PushPullPack) (m : MutableDatatype) :
    Option (Except ClientPushPullError Unit × MutableDatatype) :=
  match handleErrorAndDatatypeState pulled m.state with
  | Option.none => Option.none
  | some (.error e) => some (.error e, m)
  | some (.ok p) =>
    let m1 := { m with checkpoint := m.checkpoint.check_with pulled.checkpoint }
    let m2 := if m.state ≠ p.1 then { m1 with state := p.1 } else m1
    some (.ok (), m2)

/-- C6: a pulled pack carrying `IllegalPushRequest(reason)` makes
`PullHandler::apply` return `FailedAndAbort(reason)` and leaves the
`MutableDatatype` untouched — the checkpoint-sync and state-commit stages
are never reached. -/
theorem pull_illegal_push_aborts (pulled : PushPullPack) (m : MutableDatatype)
    (reason : String) (h : pulled.error = some (.illegalPushRequest reason)) :
    PullHandler.apply pulled m = some (.error (.failedAndAbort reason), m) := by
  unfold PullHandler.apply handleErrorAndDatatypeState
  rw [h]

/-- A concrete pulled pack used by the PullHandler witnesses. -/
def samplePulled : PushPullPack :=
  { collection := "col", cuid := 7, duid := 9, key := "k",
    type := .counter, state := .dueToCreate, checkpoint := ⟨3, 2⟩,
    safe_sseq := 0, transactions := [], is_readonly := false,
    has_snapshot := false, error := Option.none }

/-- Witness for C6 at a concrete input. -/
theorem pull_illegal_push_aborts_witness :
    PullHandler.apply
        { samplePulled with error := some (.illegalPushRequest "bad push") }
        c1Committed
      = some (.error (.failedAndAbort "bad push"), c1Committed) :=
  pull_illegal_push_aborts
    { samplePulled with error := some (.illegalPushRequest "bad push") }
    c1Committed "bad push" rfl

/-- C5: the new lifecycle state (and the `is_created` mark) is a function
of the pair (old state, pulled state) exactly as the table prescribes, all
other pairs leave the state unchanged, and on an error-free pull `apply`
installs exactly the derived state (the `wrap_up` write happens only when
the derived state differs) while syncing the checkpoint. -/
theorem pull_state_derivation :
    (deriveNewState .dueToCreate .dueToCreate = (.subscribed, true))
    ∧ (deriveNewState .dueToSubscribe .dueToSubscribe = (.subscribed, false))
    ∧ (deriveNewState .dueToSubscribeOrCreate .dueToCreate = (.subscribed, true))
    ∧ (deriveNewState .dueToSubscribeOrCreate .dueToSubscribe = (.subscribed, false))
    ∧ (deriveNewState .subscribed .subscribed = (.subscribed, false))
    ∧ (∀ old ps : DatatypeState,
        ¬ (old = .dueToCreate ∧ ps = .dueToCreate)
        → ¬ (old = .dueToSubscribe ∧ ps = .dueToSubscribe)
        → ¬ (old = .dueToSubscribeOrCreate ∧ (ps = .dueToCreate ∨ ps = .dueToSubscribe))
        → (deriveNewState old ps).1 = old)
    ∧ (∀ (pulled : PushPullPack) (m : MutableDatatype), pulled.error = Option.none →
        ∃ m', PullHandler.apply pulled m = some (.ok (), m')
          ∧ m'.state = (deriveNewState m.state pulled.state).1
          ∧ m'.checkpoint = m.checkpoint.check_with pulled.checkpoint
          ∧ m'.crdt = m.crdt ∧ m'.push_buffer = m.push_buffer
          ∧ m'.transaction = m.transaction ∧ m'.rollback = m.rollback
          ∧ m'.op_id = m.op_id) := by
  refine ⟨rfl, rfl, rfl, rfl, rfl, ?_, ?_⟩
  · intro old ps h1 h2 h3
    cases old <;> cases ps <;> simp_all [deriveNewState]
  intro pulled m herr
  unfold PullHandler.apply handleErrorAndDatatypeState
  rw [herr]
  by_cases hch : m.state ≠ (deriveNewState m.state pulled.state).1
  · refine ⟨{ m with
        checkpoint := m.checkpoint.check_with pulled.checkpoint
        state := (deriveNewState m.state pulled.state).1 },
      ?_, rfl, rfl, rfl, rfl, rfl, rfl, rfl⟩
    simp only [if_pos hch]
  · push_neg at hch
    refine ⟨{ m with checkpoint := m.checkpoint.check_with pulled.checkpoint },
      ?_, ?_, rfl, rfl, rfl, rfl, rfl, rfl⟩
    · simp only [if_neg (not_not_intro hch)]
    · exact hch

/-- Witness for C5's apply clause at a concrete input: an error-free
`DueToCreate` pull against `c1Committed` (which is in `DueToCreate`). -/
theorem pull_state_derivation_witness :
    ∃ m', PullHandler.apply samplePulled c1Committed = some (.ok (), m')
      ∧ m'.state = (deriveNewState c1Committed.state samplePulled.state).1
      ∧ m'.checkpoint = c1Committed.checkpoint.check_with samplePulled.checkpoint
      ∧ m'.crdt = c1Committed.crdt ∧ m'.push_buffer = c1Committed.push_buffer
      ∧ m'.transaction = c1Committed.transaction ∧ m'.rollback = c1Committed.rollback
      ∧ m'.op_id = c1Committed.op_id :=
  pull_state_derivation.2.2.2.2.2.2 samplePulled c1Committed rfl

/-! ### LocalDatatypeServer (connectivity/local_datatype_server.rs) -/

/-- `LocalDatatypeServer`'s record, minus the `wired_map`/`sender_map`
client-handle registries (runtime `Arc` handles and channels, read only by
the subscribe path, untouched by `process_due_to_create` and
`push_transactions`).  The `cseq_map` `HashMap` with its
`entry().or_insert(CheckPoint::new(0, 0))` access pattern is embedded as a
total function defaulting to `(0, 0)`. -/
structure LocalDatatypeServer where
  key : String
  type : DataType
  duid : Nat
  created : Bool
  creator : Nat
  sseq : Nat
  cseq_map : Nat → CheckPoint
  history : List Transaction

/-- The `for tx in pushed.transactions` loop of `push_transactions` over
the state `(client_cp.cseq, history, sseq)`: a transaction with
`tx.cseq ≤ client_cp.cseq` is skipped; otherwise it is appended to the
history, the client cseq becomes `tx.cseq`, and `sseq` is bumped. -/
def pushLoop : List Transaction → Nat → List Transaction → Nat →
    Nat × List Transaction × Nat
  | [], cp_cseq, hist, sseq => (cp_cseq, hist, sseq)
  | tx :: rest, cp_cseq, hist, sseq =>
    if tx.cseq ≤ cp_cseq then pushLoop rest cp_cseq hist sseq
    else pushLoop rest tx.cseq (hist ++ [tx]) (sseq + 1)

/-- `LocalDatatypeServer::push_transactions`: run the loop from the
client's recorded checkpoint, then set the client checkpoint's `sseq` to
the final server `sseq` and return the new client cseq. -/
def LocalDatatypeServer.push_transactions (s : LocalDatatypeServer)
    (pushed : PushPullPack) : Nat × LocalDatatypeServer :=
  let cp := s.cseq_map pushed.cuid
  let r := pushLoop pushed.transactions cp.cseq s.history s.sseq
  (r.1, { s with
    history := r.2.1
    sseq := r.2.2
    cseq_map := fun c => if c = pushed.cuid then ⟨r.2.2, r.1⟩ else s.cseq_map c })

/-- `LocalDatatypeServer::process_due_to_create` (the `Result` wrapper is
dropped: this method never returns `Err`). -/
def LocalDatatypeServer.process_due_to_create (s : LocalDatatypeServer)
    (pushed : PushPullPack) : PushPullPack × LocalDatatypeServer :=
  let pulled := pushed.get_pulled_stub
  if s.created ∧ s.duid ≠ pushed.duid then
    ({ pulled with error := some (.failedToCreate "already exist") }, s)
  else if pulled.is_readonly then
    ({ pulled with
        error := some (.failedToCreate "readonly client cannot create datatype") }, s)
  else
    let s1 : LocalDatatypeServer :=
      { s with created := true, creator := pushed.cuid, duid := pushed.duid }
    let r := s1.push_transactions pushed
    ({ pulled with state := .dueToCreate, checkpoint := ⟨r.2.sseq, r.1⟩ }, r.2)

/-- C8: a readonly `DueToCreate` push against a not-yet-created record is
answered with `FailedToCreate("readonly client cannot create datatype")`
and mutates nothing on the server: the record stays not-created and no
transaction from the pack reaches the history. -/
theorem readonly_create_rejected (s : LocalDatatypeServer) (p : PushPullPack)
    (hc : s.created = false) (hro : p.is_readonly = true) :
    s.process_due_to_create p
      = ({ p.get_pulled_stub with
            error := some (.failedToCreate "readonly client cannot create datatype") }, s) := by
  unfold LocalDatatypeServer.process_due_to_create
  rw [if_neg (by simp [hc]), if_pos ?_]
  show p.get_pulled_stub.is_readonly = true
  exact hro

/-- A concrete server record used by the server witnesses. -/
def sampleServer : LocalDatatypeServer :=
  { key := "k", type := .counter, duid := 9, created := false, creator := 7,
    sseq := 0, cseq_map := fun _ => ⟨0, 0⟩, history := [] }

/-- Witness for C8 at a concrete input. -/
theorem readonly_create_rejected_witness :
    sampleServer.process_due_to_create { samplePulled with is_readonly := true }
      = ({ PushPullPack.get_pulled_stub { samplePulled with is_readonly := true } with
            error := some (.failedToCreate "readonly client cannot create datatype") },
          sampleServer) :=
  readonly_create_rejected sampleServer { samplePulled with is_readonly := true } rfl rfl

lemma pushLoop_ge :
    ∀ (l : List Transaction) (cp : Nat) (hist : List Transaction) (sseq : Nat),
      cp ≤ (pushLoop l cp hist sseq).1
      ∧ ∀ tx ∈ l, tx.cseq ≤ (pushLoop l cp hist sseq).1 := by
  intro l
  induction l with
  | nil => intro cp hist sseq; exact ⟨Nat.le_refl cp, by simp⟩
  | cons tx rest ih =>
    intro cp hist sseq
    simp only [pushLoop]
    by_cases hle : tx.cseq ≤ cp
    · rw [if_pos hle]
      obtain ⟨h1, h2⟩ := ih cp hist sseq
      exact ⟨h1, by
        intro t ht
        rcases List.mem_cons.mp ht with rfl | ht
        · exact le_trans hle h1
        · exact h2 t ht⟩
    · rw [if_neg hle]
      obtain ⟨h1, h2⟩ := ih tx.cseq (hist ++ [tx]) (sseq + 1)
      exact ⟨by omega, by
        intro t ht
        rcases List.mem_cons.mp ht with rfl | ht
        · exact h1
        · exact h2 t ht⟩

lemma pushLoop_skip :
    ∀ (l : List Transaction) (cp : Nat) (hist : List Transaction) (sseq : Nat),
      (∀ tx ∈ l, tx.cseq ≤ cp) → pushLoop l cp hist sseq = (cp, hist, sseq) := by
  intro l
  induction l with
  | nil => intro cp hist sseq _; rfl
  | cons tx rest ih =>
    intro cp hist sseq hall
    have : tx.cseq ≤ cp := hall tx (by simp)
    simp only [pushLoop, if_pos this]
    exact ih cp hist sseq (fun t ht => hall t (by simp [ht]))

/-- C7: re-sending a `DueToCreate` push is idempotent.  When the first
`process_due_to_create` succeeds (record not created, or created with the
same duid) for a non-readonly client, the replay of the very same pack is
answered without error, returns the identical pull, and leaves the whole
server record — history, sseq, and the per-client checkpoint — exactly as
after the first call, because `push_transactions` appends only
transactions with `tx.cseq` above the client's recorded high-water mark. -/
theorem due_to_create_idempotent (s : LocalDatatypeServer) (p : PushPullPack)
    (hro : p.is_readonly = false)
    (hok : s.created = true → s.duid = p.duid) :
    (s.process_due_to_create p).1.error = Option.none
    ∧ ((s.process_due_to_create p).2.process_due_to_create p).1
        = (s.process_due_to_create p).1
    ∧ ((s.process_due_to_create p).2.process_due_to_create p).2
        = (s.process_due_to_create p).2 := by
  have hstub_ro : p.get_pulled_stub.is_readonly = false := hro
  have hguard1 : ¬ (s.created ∧ s.duid ≠ p.duid) := by
    rintro ⟨h1, h2⟩
    exact h2 (hok h1)
  -- the first call takes the success branch
  have h1 : s.process_due_to_create p
      = (let s1 : LocalDatatypeServer :=
          { s with created := true, creator := p.cuid, duid := p.duid }
        let r := s1.push_transactions p
        ({ p.get_pulled_stub with
            state := .dueToCreate
            checkpoint := ⟨r.2.sseq, r.1⟩ }, r.2)) := by
    unfold LocalDatatypeServer.process_due_to_create
    rw [if_neg hguard1, if_neg (by simp [hstub_ro])]
  rw [h1]
  simp only
  set s1 : LocalDatatypeServer :=
    { s with created := true, creator := p.cuid, duid := p.duid } with hs1
  set r := s1.push_transactions p with hr
  -- after the first call every pushed cseq is at or below the recorded mark
  have hcp : (r.2.cseq_map p.cuid).cseq = r.1 := by
    simp [hr, LocalDatatypeServer.push_transactions]
  have hall : ∀ tx ∈ p.transactions, tx.cseq ≤ r.1 := by
    intro tx htx
    have := (pushLoop_ge p.transactions (s1.cseq_map p.cuid).cseq s1.history s1.sseq).2 tx htx
    simpa [hr, LocalDatatypeServer.push_transactions] using this
  -- the second call's push loop therefore skips everything
  have hskip2 : pushLoop p.transactions r.1 r.2.history r.2.sseq
      = (r.1, r.2.history, r.2.sseq) :=
    pushLoop_skip p.transactions r.1 r.2.history r.2.sseq hall
  have hpush2 : r.2.push_transactions p = (r.1, r.2) := by
    have hmap : (fun c => if c = p.cuid then (⟨r.2.sseq, r.1⟩ : CheckPoint)
        else r.2.cseq_map c) = r.2.cseq_map := by
      funext c
      by_cases hc : c = p.cuid
      · rw [if_pos hc]
        have hsseq : (r.2.cseq_map c).sseq = r.2.sseq := by
          rw [hc]
          simp [hr, LocalDatatypeServer.push_transactions]
        have hcc : (r.2.cseq_map c).cseq = r.1 := by
          rw [hc]
          exact hcp
        have hee : r.2.cseq_map c = ⟨(r.2.cseq_map c).sseq, (r.2.cseq_map c).cseq⟩ := rfl
        rw [hee, hsseq, hcc]
      · rw [if_neg hc]
    unfold LocalDatatypeServer.push_transactions
    simp only [hcp, hskip2, hmap]
  have hguard1' : ¬ (r.2.created = true ∧ r.2.duid ≠ p.duid) := by
    rintro ⟨-, h2⟩
    exact h2 (by simp [hr, LocalDatatypeServer.push_transactions, hs1])
  have hs1again : { r.2 with created := true, creator := p.cuid, duid := p.duid } = r.2 := by
    have hcr : r.2.created = true := by
      simp [hr, LocalDatatypeServer.push_transactions, hs1]
    have hcrt : r.2.creator = p.cuid := by
      simp [hr, LocalDatatypeServer.push_transactions, hs1]
    have hdu : r.2.duid = p.duid := by
      simp [hr, LocalDatatypeServer.push_transactions, hs1]
    rw [← hcr, ← hcrt, ← hdu]
  refine ⟨rfl, ?_, ?_⟩ <;>
    · unfold LocalDatatypeServer.process_due_to_create
      rw [if_neg hguard1', if_neg (by simp [hstub_ro])]
      simp only [hs1again, hpush2]

/-- Witness for C7 at a concrete input: creating on a fresh server with a
pack carrying one transaction, twice. -/
theorem due_to_create_idempotent_witness :
    ((sampleServer.process_due_to_create
        { samplePulled with transactions := [c1Tx] }).1.error = Option.none
    ∧ (((sampleServer.process_due_to_create { samplePulled with transactions := [c1Tx] }).2.process_due_to_create
        { samplePulled with transactions := [c1Tx] }).1
        = (sampleServer.process_due_to_create { samplePulled with transactions := [c1Tx] }).1
    ∧ (((sampleServer.process_due_to_create { samplePulled with transactions := [c1Tx] }).2.process_due_to_create
        { samplePulled with transactions := [c1Tx] }).2
        = (sampleServer.process_due_to_create { samplePulled with transactions := [c1Tx] }).2))) :=
  due_to_create_idempotent sampleServer { samplePulled with transactions := [c1Tx] }
    rfl (fun h => absurd h (by decide))

/-! ### DatatypeManager (clients/datatype_manager.rs, datatypes/datatype_set.rs) -/

/-- `ClientError` from errors/clients.rs. -/
inductive ClientError where
  | invalidCollectionName (msg : String)
  | failedToSubscribeOrCreateDatatype (msg : String)
deriving DecidableEq, Repr

/-- The observable face of `DatatypeSet` (datatypes/datatype_set.rs): the
manager consults only `get_type`/`get_state`, so the wrapped live handle
(counter, shared context, connectivity registration, event loop) is
represented by the type, state, and key it was created with. -/
structure DatatypeSet where
  type : DataType
  state : DatatypeState
  key : String
deriving DecidableEq, Repr

/-- `DatatypeSet::get_type`. -/
def DatatypeSet.get_type (d : DatatypeSet) : DataType := d.type

/-- `DatatypeSet::get_state`. -/
def DatatypeSet.get_state (d : DatatypeSet) : DatatypeState := d.state

/-- `DatatypeSet::new` (the shared client context, option, and readonly
flag configure the wrapped handle and do not show up through
`get_type`/`get_state`). -/
def DatatypeSet.new (type : DataType) (key : String) (state : DatatypeState)
    (_option : DatatypeOption) (_is_readonly : Bool) : DatatypeSet :=
  { type := type, state := state, key := key }

/-- Printable names used to build the manager's error message. -/
def DataType.str : DataType → String
  | .counter => "Counter"
  | .variableType => "Variable"
  | .mapType => "Map"

def DatatypeState.str : DatatypeState → String
  | .dueToCreate => "DueToCreate"
  | .dueToSubscribe => "DueToSubscribe"
  | .dueToSubscribeOrCreate => "DueToSubscribeOrCreate"
  | .subscribed => "Subscribed"
  | .dueToUnsubscribe => "DueToUnsubscribe"
  | .dueToDelete => "DueToDelete"
  | .disabled => "Disabled"

/-- `DatatypeManager`: the key-to-datatype map (a `HashMap` embedded as a
lookup function). -/
structure DatatypeManager where
  datatypes : String → Option DatatypeSet

/-- `DatatypeManager::new`. -/
def DatatypeManager.new : DatatypeManager := ⟨fun _ => Option.none⟩

/-- `DatatypeManager::subscribe_or_create_datatype`: on an occupied key,
error only when the existing entry's type or state differs from the
demanded ones, otherwise hand back the existing entry; on a vacant key,
construct and insert a new datatype. -/
def DatatypeManager.subscribe_or_create_datatype (dm : DatatypeManager)
    (key : String) (type : DataType) (state : DatatypeState)
    (option : DatatypeOption) (is_readonly : Bool) :
    Except ClientError DatatypeSet × DatatypeManager :=
  match dm.datatypes key with
  | some existing =>
    if existing.get_type ≠ type ∨ existing.get_state ≠ state then
      (.error (.failedToSubscribeOrCreateDatatype
        (type.str ++ " '" ++ key ++ "' was demanded as " ++ state.str
          ++ ", but the client already has " ++ existing.get_type.str
          ++ " '" ++ key ++ "' as " ++ existing.get_state.str)), dm)
    else (.ok existing, dm)
  | Option.none =>
    let dt := DatatypeSet.new type key state option is_readonly
    (.ok dt, ⟨fun k => if k = key then some dt else dm.datatypes k⟩)

/-- A manager already holding key "k1" as a `Counter` in `DueToCreate`
(the state `subscribe_or_create_datatype` itself produces for that call). -/
def sampleManager : DatatypeManager :=
  ⟨fun k => if k = "k1" then some ⟨.counter, .dueToCreate, "k1"⟩ else Option.none⟩

/-- Counterexample to C9 as stated: a second
`subscribe_or_create_datatype` for a key that is already present does NOT
fail when it demands the same type and state — it returns the existing
handle.  The manager's own test (`res4` in `tests_datatype_manager`)
asserts exactly this success. -/
theorem subscribe_or_create_existing_succeeds :
    sampleManager.datatypes "k1" = some ⟨.counter, .dueToCreate, "k1"⟩
    ∧ (sampleManager.subscribe_or_create_datatype "k1" .counter .dueToCreate
        (DatatypeOption.new 0) false).1
      = .ok ⟨.counter, .dueToCreate, "k1"⟩ := by
  constructor
  · rfl
  · rfl

/-- C9 (amended): a `subscribe_or_create_datatype` call for an occupied
key fails with `FailedToSubscribeOrCreateDatatype` exactly when the
existing entry's type or state differs from the demanded ones; with both
matching, the existing handle is returned and the map is unchanged; only a
call for an absent key constructs and inserts a new datatype handle. -/
theorem subscribe_or_create_amended (dm : DatatypeManager) (key : String)
    (type : DataType) (state : DatatypeState) (option : DatatypeOption)
    (is_readonly : Bool) :
    (∀ existing, dm.datatypes key = some existing →
      (existing.get_type ≠ type ∨ existing.get_state ≠ state) →
      ∃ msg, dm.subscribe_or_create_datatype key type state option is_readonly
        = (.error (.failedToSubscribeOrCreateDatatype msg), dm))
    ∧ (∀ existing, dm.datatypes key = some existing →
        existing.get_type = type → existing.get_state = state →
        dm.subscribe_or_create_datatype key type state option is_readonly
          = (.ok existing, dm))
    ∧ (dm.datatypes key = Option.none →
        (dm.subscribe_or_create_datatype key type state option is_readonly).1
          = .ok (DatatypeSet.new type key state option is_readonly)
        ∧ (dm.subscribe_or_create_datatype key type state option is_readonly).2.datatypes
            key = some (DatatypeSet.new type key state option is_readonly)
        ∧ ∀ k, k ≠ key →
            (dm.subscribe_or_create_datatype key type state option is_readonly).2.datatypes
              k = dm.datatypes k) := by
  refine ⟨?_, ?_, ?_⟩
  · intro existing hex hne
    unfold DatatypeManager.subscribe_or_create_datatype
    simp only [hex, if_pos hne]
    exact ⟨_, rfl⟩
  · intro existing hex hty hst
    unfold DatatypeManager.subscribe_or_create_datatype
    simp only [hex]
    rw [if_neg (by simp [hty, hst])]
  · intro hnone
    unfold DatatypeManager.subscribe_or_create_datatype
    simp only [hnone]
    refine ⟨trivial, ?_, ?_⟩
    · simp
    · intro k hk
      rw [if_neg hk]

/-- Witness for the amended C9 at a concrete input: the matching-entry
clause on `sampleManager`. -/
theorem subscribe_or_create_amended_witness :
    DatatypeManager.subscribe_or_create_datatype sampleManager "k1" .counter .dueToCreate
        (DatatypeOption.new 0) false
      = (.ok ⟨.counter, .dueToCreate, "k1"⟩, sampleManager) :=
  (subscribe_or_create_amended sampleManager "k1" .counter .dueToCreate
    (DatatypeOption.new 0) false).2.1 ⟨.counter, .dueToCreate, "k1"⟩ rfl rfl rfl

end Qortoo
